import Mathlib

/-!
Verification of the streaming chat client and session store of the
LNDC_Bot repository (`src/api/mod.rs`, `src/session/mod.rs`), as a shallow
embedding in Lean 4.  Rust strings are modelled as Lean `String`
(sequences of Unicode scalar values) with explicit byte accounting where
the source indexes by bytes; `serde_json` values are modelled by an
inductive `Json` type together with an executable parser modelling
`serde_json::from_str` on the payload fragments exercised here; filesystem
state is modelled as explicit lists of (file name, content) pairs.
-/

namespace LNDC

/-- Decides whether the first list is an initial segment of the second. -/
def isInitSeg : List Char → List Char → Bool
  | [], _ => true
  | _ :: _, [] => false
  | a :: as, b :: bs => a == b && isInitSeg as bs

/-- Models Rust `str::strip_prefix`: `some` of the remainder when `p` is a
leading pattern of `s`, otherwise `none`. -/
def stripPfx (p s : String) : Option String :=
  if isInitSeg p.data s.data then some (String.mk (s.data.drop p.data.length))
  else none

/-- Helper for `rustLines`: `acc` holds the chars of the current line in
reverse.  A line ending in a carriage return directly before the line feed
has that carriage return removed, matching Rust, which splits lines at
either a line feed or a carriage return followed by a line feed; a final
line without a trailing line feed keeps a lone trailing carriage return. -/
def rustLinesAux : List Char → List Char → List String
  | [], acc => if acc.isEmpty then [] else [String.mk acc.reverse]
  | c :: cs, acc =>
    if c == '\n' then
      let acc := match acc with
        | '\r' :: rest => rest
        | other => other
      String.mk acc.reverse :: rustLinesAux cs []
    else
      rustLinesAux cs (c :: acc)

/-- Models Rust `str::lines` as used on each decoded SSE chunk
(`text.lines()` in `get_chat_response`). -/
def rustLines (s : String) : List String :=
  rustLinesAux s.data []

/-- JSON values as produced by `serde_json::from_str::<serde_json::Value>`.
Numbers are restricted to integers, which suffices for every payload the
decoder inspects. -/
inductive Json where
  | null : Json
  | bool : Bool → Json
  | num : Int → Json
  | str : String → Json
  | arr : List Json → Json
  | obj : List (String × Json) → Json
deriving Inhabited

/-- JSON insignificant whitespace. -/
def jsonWs (c : Char) : Bool :=
  c == ' ' || c == '\t' || c == '\n' || c == '\r'

/-- Skips JSON insignificant whitespace. -/
def skipWs : List Char → List Char
  | [] => []
  | c :: cs => if jsonWs c then skipWs cs else c :: cs

/-- Parses the body of a JSON string literal after the opening quote,
returning the decoded text and the input after the closing quote.  The
escapes handled are the ones serde_json accepts other than the numeric
form, which no payload here uses. -/
def parseJStr : List Char → Option (String × List Char) := fun cs =>
  go cs []
where
  go : List Char → List Char → Option (String × List Char)
    | [], _ => none
    | c :: cs, acc =>
      if c == '"' then some (String.mk acc.reverse, cs)
      else if c == '\\' then
        match cs with
        | [] => none
        | e :: cs =>
          if e == '"' then go cs ('"' :: acc)
          else if e == '\\' then go cs ('\\' :: acc)
          else if e == '/' then go cs ('/' :: acc)
          else if e == 'n' then go cs ('\n' :: acc)
          else if e == 't' then go cs ('\t' :: acc)
          else if e == 'r' then go cs ('\r' :: acc)
          else none
      else go cs (c :: acc)

/-- Parses an optionally signed run of decimal digits. -/
def parseJNum : List Char → Option (Int × List Char) := fun cs =>
  match cs with
  | '-' :: rest =>
    match digits rest 0 with
    | some (n, rest) => some (-(n : Int), rest)
    | none => none
  | _ =>
    match digits cs 0 with
    | some (n, rest) => some ((n : Int), rest)
    | none => none
where
  digits : List Char → Nat → Option (Nat × List Char)
    | [], acc => some (acc, [])
    | c :: cs, acc =>
      if c.isDigit then
        match digits cs (acc * 10 + (c.toNat - 48)) with
        | some r => some r
        | none => none
      else some (acc, c :: cs)

mutual

/-- Parses one JSON value; `fuel` bounds the nesting depth. -/
def parseJVal (fuel : Nat) (cs : List Char) : Option (Json × List Char) :=
  match fuel with
  | 0 => none
  | fuel + 1 =>
    match skipWs cs with
    | [] => none
    | c :: cs =>
      if c == '"' then
        match parseJStr cs with
        | some (s, rest) => some (Json.str s, rest)
        | none => none
      else if c == '\x7b' then
        parseJObj fuel (skipWs cs)
      else if c == '[' then
        parseJArr fuel (skipWs cs)
      else if c == 't' then
        match cs with
        | 'r' :: 'u' :: 'e' :: rest => some (Json.bool true, rest)
        | _ => none
      else if c == 'f' then
        match cs with
        | 'a' :: 'l' :: 's' :: 'e' :: rest => some (Json.bool false, rest)
        | _ => none
      else if c == 'n' then
        match cs with
        | 'u' :: 'l' :: 'l' :: rest => some (Json.null, rest)
        | _ => none
      else if c == '-' || c.isDigit then
        match parseJNum (c :: cs) with
        | some (n, rest) => some (Json.num n, rest)
        | none => none
      else none

/-- Parses the inside of a JSON object, the opening brace consumed. -/
def parseJObj (fuel : Nat) (cs : List Char) : Option (Json × List Char) :=
  match fuel with
  | 0 => none
  | fuel + 1 =>
    match cs with
    | '\x7d' :: rest => some (Json.obj [], rest)
    | _ => parseJMembers fuel cs []

/-- Parses the members of a non-empty JSON object. -/
def parseJMembers (fuel : Nat) (cs : List Char) (acc : List (String × Json)) :
    Option (Json × List Char) :=
  match fuel with
  | 0 => none
  | fuel + 1 =>
    match skipWs cs with
    | '"' :: cs =>
      match parseJStr cs with
      | some (k, rest) =>
        match skipWs rest with
        | ':' :: rest =>
          match parseJVal fuel rest with
          | some (v, rest) =>
            match skipWs rest with
            | ',' :: rest => parseJMembers fuel rest ((k, v) :: acc)
            | '\x7d' :: rest => some (Json.obj ((k, v) :: acc).reverse, rest)
            | _ => none
          | none => none
        | _ => none
      | none => none
    | _ => none

/-- Parses the inside of a JSON array, the opening bracket consumed. -/
def parseJArr (fuel : Nat) (cs : List Char) : Option (Json × List Char) :=
  match fuel with
  | 0 => none
  | fuel + 1 =>
    match cs with
    | ']' :: rest => some (Json.arr [], rest)
    | _ => parseJElems fuel cs []

/-- Parses the elements of a non-empty JSON array. -/
def parseJElems (fuel : Nat) (cs : List Char) (acc : List Json) :
    Option (Json × List Char) :=
  match fuel with
  | 0 => none
  | fuel + 1 =>
    match parseJVal fuel cs with
    | some (v, rest) =>
      match skipWs rest with
      | ',' :: rest => parseJElems fuel rest (v :: acc)
      | ']' :: rest => some (Json.arr (v :: acc).reverse, rest)
      | _ => none
    | none => none

end

/-- Models `serde_json::from_str::<serde_json::Value>`: the whole input
must be consumed up to trailing whitespace. -/
def parseJson (s : String) : Option Json :=
  match parseJVal (s.data.length + 1) s.data with
  | some (v, rest) => if (skipWs rest).isEmpty then some v else none
  | none => none

/-- Key lookup in an object member list with the last occurrence winning,
matching the insertion order of the map built by serde_json. -/
def lookupLast : List (String × Json) → String → Option Json
  | [], _ => none
  | (k, v) :: rest, key =>
    match lookupLast rest key with
    | some r => some r
    | none => if k == key then some v else none

/-- Models serde_json `Value` indexing by string key
(`value["key"]`): the member value in an object, `Null` otherwise. -/
def Json.index (j : Json) (k : String) : Json :=
  match j with
  | Json.obj kvs =>
    match lookupLast kvs k with
    | some v => v
    | none => Json.null
  | _ => Json.null

/-- Models serde_json `Value` indexing by position (`value[0]`): the
element of an array, `Null` otherwise. -/
def Json.idx (j : Json) (i : Nat) : Json :=
  match j with
  | Json.arr xs => (xs.get? i).getD Json.null
  | _ => Json.null

/-- Models serde_json `Value::as_str`. -/
def Json.asStr : Json → Option String
  | Json.str s => some s
  | _ => none

/-- Models Rust `s.trim().is_empty()`: the string contains nothing but
whitespace.  (Whitespace here is the ASCII subset, which covers every
content fragment the decoder distinguishes.) -/
def rustIsBlank (s : String) : Bool :=
  s.data.all (fun c => c.isWhitespace)

/-- The mutable state of the SSE decode loop in
`APIClient::get_chat_response` (`src/api/mod.rs` lines 152-157):
the replay-ordered event log, the two answer accumulators, the current
event name, and the done flag. -/
structure DecodeState where
  events : List (String × String)
  fast_answer : String
  answer_delta : String
  current_event : String
  done : Bool
deriving DecidableEq, Repr

/-- The initial decode state: empty log, empty accumulators, empty current
event name, not done. -/
def DecodeState.init : DecodeState :=
  { events := [], fast_answer := "", answer_delta := "",
    current_event := "", done := false }

/-- The `if current_event == "fastAnswer" || current_event == "answer"`
block of the decode loop is `answerStep` below; its first statement,
`src/api/mod.rs` lines 176-186, appends a non-blank
`choices[0].delta.content` to the accumulator matching the current event
name. -/
def deltaStep (st : DecodeState) (choice0 : Json) : DecodeState :=
  match ((choice0.index "delta").index "content").asStr with
  | some delta =>
    if rustIsBlank delta then st
    else if st.current_event == "fastAnswer" then
      { st with fast_answer := st.fast_answer ++ delta }
    else
      { st with answer_delta := st.answer_delta ++ delta }
  | none => st

/-- The fallback of `src/api/mod.rs` lines 187-201: when the accumulator
matching the current event is still empty after the delta step, a
non-blank `choices[0].message.content` is appended as a one-shot full
answer. -/
def fullAnswerStep (st : DecodeState) (choice0 : Json) : DecodeState :=
  if (if st.current_event == "fastAnswer" then st.fast_answer == ""
      else st.answer_delta == "") then
    match ((choice0.index "message").index "content").asStr with
    | some full =>
      if rustIsBlank full then st
      else if st.current_event == "fastAnswer" then
        { st with fast_answer := st.fast_answer ++ full }
      else
        { st with answer_delta := st.answer_delta ++ full }
    | none => st
  else st

/-- Lines 203-209 of `src/api/mod.rs`: `choices[0].finish_reason == "stop"`
marks the stream done. -/
def finishStep (st : DecodeState) (choice0 : Json) : DecodeState :=
  match (choice0.index "finish_reason").asStr with
  | some reason => if reason == "stop" then { st with done := true } else st
  | none => st

/-- The whole `if current_event == "fastAnswer" || current_event == "answer"`
block of the decode loop (`src/api/mod.rs` lines 173-211): parse the data
payload and run the three statements above in order.  A payload serde_json
fails to parse is ignored (the `if let Ok(..)` has no else branch). -/
def answerStep (st : DecodeState) (data : String) : DecodeState :=
  if st.current_event == "fastAnswer" || st.current_event == "answer" then
    match parseJson data with
    | none => st
    | some respVal =>
      let choice0 := (respVal.index "choices").idx 0
      finishStep (fullAnswerStep (deltaStep st choice0) choice0) choice0
  else st

/-- One iteration of the `for line in text.lines()` body of
`get_chat_response` (`src/api/mod.rs` lines 162-213): an `event: ` line
replaces the current event name; a `data: ` line is appended to the event
log and then handled by `answerStep`; any other line is ignored.  The
progress callback `on_event` is invoked right after the event is pushed,
with the same pair; it is modelled as succeeding, so the pairs delivered
to it are exactly the pairs appended to `events`. -/
def processLine (st : DecodeState) (line : String) : DecodeState :=
  match stripPfx "event: " line with
  | some evt => { st with current_event := evt }
  | none =>
    match stripPfx "data: " line with
    | none => st
    | some data =>
      answerStep { st with events := st.events ++ [(st.current_event, data)] } data

/-- Processing of one received chunk: split into lines and fold
`processLine` over them.  (The source decodes the chunk bytes with
`String::from_utf8_lossy`; chunks are modelled as the decoded text.) -/
def processChunk (st : DecodeState) (chunk : String) : DecodeState :=
  (rustLines chunk).foldl processLine st

/-- The `while let Some(item) = byte_stream.next()` loop of
`get_chat_response`: each chunk is processed in full, and only then is the
`done` flag consulted to stop reading (`if done break` sits after the
inner line loop, `src/api/mod.rs` lines 158-217). -/
def decodeStream (st : DecodeState) : List String → DecodeState
  | [] => st
  | c :: cs =>
    let st := processChunk st c
    if st.done then st else decodeStream st cs

/-- The part of `ChatResponse` the decode loop determines: the final
merged content and the replay event log. -/
structure ChatResponse where
  content : String
  events : List (String × String)
deriving DecidableEq, Repr

/-- The SSE decode phase of `get_chat_response` on a successful response
body given as a list of chunks: run the decode loop from the initial
state, then merge `content := fast_answer ++ answer_delta`
(`src/api/mod.rs` line 219). -/
def decodeChat (chunks : List String) : ChatResponse :=
  let st := decodeStream DecodeState.init chunks
  { content := st.fast_answer ++ st.answer_delta, events := st.events }

/-! ### Concrete SSE frames used by the claims -/

/-- Payload of the first frame of the spec's two-frame example. -/
def c1payload1 : String :=
  "\x7b\"choices\":[\x7b\"delta\":\x7b\"content\":\"Hi\"\x7d\x7d]\x7d"

/-- Payload of the second frame of the spec's two-frame example. -/
def c1payload2 : String :=
  "\x7b\"choices\":[\x7b\"delta\":\x7b\"content\":\" there\"\x7d,\"finish_reason\":\"stop\"\x7d]\x7d"

/-- First frame of the spec's two-frame example, as one received chunk. -/
def c1frame1 : String := "event: answer\ndata: " ++ c1payload1 ++ "\n\n"

/-- Second frame of the spec's two-frame example, as one received chunk. -/
def c1frame2 : String := "event: answer\ndata: " ++ c1payload2 ++ "\n\n"

/-- A chunk carrying an `answer` frame whose payload is malformed JSON,
followed by a well-formed `answer` frame. -/
def c3chunk : String :=
  "event: answer\ndata: \x7bnot json\n\nevent: answer\ndata: " ++ c1payload1 ++ "\n\n"

/-- Payload of a `fastAnswer` frame that carries content together with
`finish_reason: "stop"`. -/
def c4payload : String :=
  "\x7b\"choices\":[\x7b\"delta\":\x7b\"content\":\"Hi\"\x7d,\"finish_reason\":\"stop\"\x7d]\x7d"

/-- A single chunk in which a stop-marked `fastAnswer` frame is followed,
inside the same chunk, by one more buffered frame. -/
def c4chunk : String :=
  "event: fastAnswer\ndata: " ++ c4payload ++ "\n\nevent: foo\ndata: later\n\n"

/-- A further chunk arriving after the chunk that contains the stop
frame. -/
def c4extra : String := "event: bar\ndata: more\n\n"

/-! ### The retry loop of `get_chat_response` -/

/-- The classified outcome of one `client.post(..).send().await` attempt
(`src/api/mod.rs` lines 118-124): a 2xx response, a non-2xx response with
status and captured body text, or a transport error. -/
inductive SendOutcome where
  | success : SendOutcome
  | httpError : Nat → String → SendOutcome
  | transportError : String → SendOutcome
deriving DecidableEq, Repr

/-- How the retry loop exits: by breaking with the successful response,
or with one of the two error constructions of
`src/api/mod.rs` lines 131 and 137. -/
inductive RetryResult where
  | ok : RetryResult
  | remoteError : Nat → String → RetryResult
  | transportError : String → RetryResult
deriving DecidableEq, Repr

/-- The error the loop builds from a failed attempt: `remoteError` with
status and body for a non-2xx response, `transportError` for a send
error. -/
def errOf : SendOutcome → RetryResult
  | SendOutcome.success => RetryResult.ok
  | SendOutcome.httpError s b => RetryResult.remoteError s b
  | SendOutcome.transportError m => RetryResult.transportError m

/-- Observable behaviour of one run of the retry loop: how it exited,
how many attempts were made, and the backoff sleeps performed, in order
and in seconds. -/
structure RetryTrace where
  result : RetryResult
  attempts : Nat
  sleeps : List Nat
deriving DecidableEq, Repr

/-- The `let max_retries = 3` of `src/api/mod.rs` line 114. -/
def maxRetries : Nat := 3

/-- The retry loop of `get_chat_response` (`src/api/mod.rs` lines
116-148), starting with `attempts` prior attempts; `outcomes a` is the
result of the a-th send (1-indexed).  Each iteration increments the
attempt counter, sends, breaks on a 2xx response, returns the error once
`attempts >= max_retries`, and otherwise sleeps `2^attempts` seconds and
retries.  The guard makes the loop return within `maxRetries` iterations,
so the structural `fuel` argument, instantiated with `maxRetries` by
`retryLoop`, is never exhausted; the fuel-0 branch is unreachable. -/
def retryFrom (outcomes : Nat → SendOutcome) (attempts : Nat) :
    Nat → RetryTrace
  | 0 => { result := RetryResult.ok, attempts := attempts, sleeps := [] }
  | fuel + 1 =>
    let a := attempts + 1
    match outcomes a with
    | SendOutcome.success =>
      { result := RetryResult.ok, attempts := a, sleeps := [] }
    | SendOutcome.httpError status body =>
      if a ≥ maxRetries then
        { result := RetryResult.remoteError status body, attempts := a,
          sleeps := [] }
      else
        let t := retryFrom outcomes a fuel
        { t with sleeps := 2 ^ a :: t.sleeps }
    | SendOutcome.transportError msg =>
      if a ≥ maxRetries then
        { result := RetryResult.transportError msg, attempts := a,
          sleeps := [] }
      else
        let t := retryFrom outcomes a fuel
        { t with sleeps := 2 ^ a :: t.sleeps }

/-- The retry loop as entered by `get_chat_response`: no prior
attempts. -/
def retryLoop (outcomes : Nat → SendOutcome) : RetryTrace :=
  retryFrom outcomes 0 maxRetries

/-! ### The session store (`src/session/mod.rs`)

A session directory is modelled by the list of its regular files as
(file name, content) pairs — the layout produced by the store holds no
subdirectories — together with its name and its modification time in
whole seconds.  `fs::write` is modelled by `writeFile` (truncate or
create), `fs::remove_file` always succeeds in this model. -/

/-- The chars after the last `.` of the list, if any. -/
def afterLastDot : List Char → Option (List Char)
  | [] => none
  | c :: cs =>
    match afterLastDot cs with
    | some r => some r
    | none => if c == '.' then some cs else none

/-- Models Rust `Path::extension` on a plain file name: the portion of
the name after the final `.`, where a dot in leading position is part of
the stem (so `.cleaned` has no extension), and `none` when no such dot
exists. -/
def rustExtension (name : String) : Option String :=
  match name.data with
  | [] => none
  | _ :: rest => (afterLastDot rest).map String.mk

/-- The extension test of `cleanup_session_images`
(`src/session/mod.rs` line 214): the extension is exactly `png`, `jpg`
or `jpeg`. -/
def isImageFile (name : String) : Bool :=
  match rustExtension name with
  | some ext => ext == "png" || ext == "jpg" || ext == "jpeg"
  | none => false

/-- Models `fs::write`: replaces the content of an existing file of that
name, creates the file otherwise. -/
def writeFile (files : List (String × String)) (name content : String) :
    List (String × String) :=
  if files.any (fun f => f.1 == name) then
    files.map (fun f => if f.1 == name then (name, content) else f)
  else files ++ [(name, content)]

/-- Content of the `.cleaned` marker (`src/session/mod.rs` line 229),
with `ts` the RFC 3339 rendering of `Utc::now()`. -/
def cleanedMarkerContent (ts : String) : String :=
  "图片已于 " ++ ts ++ " 清理"

/-- Outcome of `cleanup_session_images`: the directory contents after the
purge and the count of removed files (the `Ok(removed)` return value). -/
structure CleanupResult where
  files : List (String × String)
  removed : Nat
deriving DecidableEq, Repr

/-- Models `SessionManager::cleanup_session_images` on an existing session
directory (`src/session/mod.rs` lines 198-232): remove every regular
file whose extension is `png`, `jpg` or `jpeg` (each removal succeeding
in this model, so `removed` counts exactly the image files), then write
the `.cleaned` marker recording the purge timestamp. -/
def cleanup_session_images (files : List (String × String)) (ts : String) :
    CleanupResult :=
  let kept := files.filter (fun f => !(isImageFile f.1))
  { files := writeFile kept ".cleaned" (cleanedMarkerContent ts),
    removed := files.countP (fun f => isImageFile f.1) }

/-- One entry of the sessions directory, as read by `periodic_cleanup`:
a session directory's name, regular files, and modification time in
whole seconds. -/
structure SessionEntry where
  name : String
  files : List (String × String)
  mtime : Nat
deriving DecidableEq, Repr

/-- The owner-sentinel check of `periodic_cleanup`
(`src/session/mod.rs` lines 247-248): the session directory contains
`user_id.txt`. -/
def hasSentinel (e : SessionEntry) : Bool :=
  e.files.any (fun f => f.1 == "user_id.txt")

/-- The `let seconds_in_day = 24 * 60 * 60` of `src/session/mod.rs`
line 236. -/
def secondsInDay : Nat := 24 * 60 * 60

/-- The body of the per-entry loop of `SessionManager::periodic_cleanup`
(`src/session/mod.rs` lines 244-293): a session lacking `user_id.txt` has
its images cleaned unconditionally; otherwise, when
`now.duration_since(modified)` is `Ok` (the modification time is not in
the future) and exceeds `expiry_days` worth of seconds, the images are
cleaned; otherwise the entry is untouched.  All entries of the model are
directories, so the `metadata.is_dir()` test holds. -/
def pcStep (now : Nat) (ts : String) (expiryDays : Nat) (e : SessionEntry) :
    SessionEntry :=
  if !(hasSentinel e) then
    { e with files := (cleanup_session_images e.files ts).files }
  else if e.mtime ≤ now then
    if now - e.mtime > expiryDays * secondsInDay then
      { e with files := (cleanup_session_images e.files ts).files }
    else e
  else e

/-- Models `SessionManager::periodic_cleanup(expiry_days)`: the per-entry step
applied to every entry of the sessions directory. -/
def periodic_cleanup (now : Nat) (ts : String) (expiryDays : Nat)
    (entries : List SessionEntry) : List SessionEntry :=
  entries.map (pcStep now ts expiryDays)

/-- The observable behaviour of `SessionManager::create_session`
(`src/session/mod.rs` lines 31-48): the value returned to the caller,
whether the directory and the sentinel were actually created, the files
of the new directory, and the lines passed to `error!`.  The fresh `Uuid::new_v4` is passed in as
`sessionId`, and the outcomes of the two filesystem calls
(`fs::create_dir_all`, `fs::write`) are parameters, `none` meaning
success and `some e` a failure rendering as `e`.  The Rust function
returns a plain `String`: both failures are logged and swallowed, and
the session id is returned regardless. -/
structure CreateSessionEffects where
  returned : String
  dirCreated : Bool
  sentinelWritten : Bool
  files : List (String × String)
  logged : List String
deriving DecidableEq, Repr

/-- See `CreateSessionEffects`. -/
def create_session (sessionId userId : String)
    (mkdirOutcome writeOutcome : Option String) : CreateSessionEffects :=
  let log1 := match mkdirOutcome with
    | none => []
    | some e => ["创建会话目录失败: " ++ e]
  let log2 := match writeOutcome with
    | none => []
    | some e => ["保存用户ID失败: " ++ e]
  { returned := sessionId,
    dirCreated := mkdirOutcome.isNone,
    sentinelWritten := writeOutcome.isNone,
    files := match writeOutcome with
      | none => [("user_id.txt", userId)]
      | some _ => [],
    logged := log1 ++ log2 }

/-- Byte length of a Rust string (`content.len()`). -/
def rustByteLen (s : String) : Nat :=
  s.data.foldl (fun n c => n + c.utf8Size) 0

/-- The chars making up the first `n` bytes of the list, or `none` when
byte index `n` does not fall on a character boundary (or past the end),
in which case Rust byte slicing panics. -/
def takeBytes : List Char → Nat → Option (List Char)
  | _, 0 => some []
  | [], _ + 1 => none
  | c :: cs, n + 1 =>
    if c.utf8Size ≤ n + 1 then
      (takeBytes cs (n + 1 - c.utf8Size)).map (fun l => c :: l)
    else none

/-- The input-preview computation of `SessionManager::get_session_info`
(`src/session/mod.rs` lines 146-157): when `input.txt` cannot be read the
preview is a fixed message; when the content is longer than 30 bytes the
code takes the byte slice `&content[..30]` and appends `"..."`.  The
outer `none` models the byte-slice panic raised when byte index 30 falls
inside a multi-byte character. -/
def input_preview (readResult : Option String) : Option String :=
  match readResult with
  | some content =>
    if rustByteLen content > 30 then
      match takeBytes content.data 30 with
      | some pre => some (String.mk pre ++ "...")
      | none => none
    else some content
  | none => some "无法读取输入"

/-- A 31-byte input whose byte 30 falls inside its final two-byte
character: 29 ASCII letters followed by U+00E9. -/
def c9input : String := String.mk (List.replicate 29 'a' ++ ['\xe9'])

/-! ## Theorems -/

/-! ### Decoder helper lemmas -/

theorem deltaStep_preserves (st : DecodeState) (j : Json) :
    (deltaStep st j).events = st.events ∧
    (deltaStep st j).current_event = st.current_event ∧
    (deltaStep st j).done = st.done := by
  unfold deltaStep
  split <;> (try split) <;> (try split) <;> simp

theorem fullAnswerStep_preserves (st : DecodeState) (j : Json) :
    (fullAnswerStep st j).events = st.events ∧
    (fullAnswerStep st j).current_event = st.current_event ∧
    (fullAnswerStep st j).done = st.done := by
  unfold fullAnswerStep
  split <;> (try split) <;> (try split) <;> (try split) <;> simp

theorem finishStep_preserves (st : DecodeState) (j : Json) :
    (finishStep st j).events = st.events ∧
    (finishStep st j).current_event = st.current_event := by
  unfold finishStep
  split <;> (try split) <;> simp

theorem answerStep_preserves (st : DecodeState) (d : String) :
    (answerStep st d).events = st.events ∧
    (answerStep st d).current_event = st.current_event := by
  unfold answerStep
  split
  · split
    · exact ⟨rfl, rfl⟩
    · rename_i respVal heq
      have h1 := deltaStep_preserves st ((respVal.index "choices").idx 0)
      have h2 := fullAnswerStep_preserves (deltaStep st ((respVal.index "choices").idx 0))
        ((respVal.index "choices").idx 0)
      have h3 := finishStep_preserves
        (fullAnswerStep (deltaStep st ((respVal.index "choices").idx 0))
          ((respVal.index "choices").idx 0))
        ((respVal.index "choices").idx 0)
      exact ⟨by rw [h3.1, h2.1, h1.1], by rw [h3.2, h2.2.1, h1.2.1]⟩
  · exact ⟨rfl, rfl⟩

theorem answerStep_parseNone (st : DecodeState) (d : String)
    (hp : parseJson d = none) : answerStep st d = st := by
  unfold answerStep
  split
  · rw [hp]
  · rfl

/-! ### Session store helper lemmas -/

theorem writeFile_mem_self (files : List (String × String))
    (name content : String) :
    (name, content) ∈ writeFile files name content := by
  unfold writeFile
  split
  · rename_i h
    obtain ⟨g, hg, hgn⟩ := List.any_eq_true.mp h
    refine List.mem_map.mpr ⟨g, hg, ?_⟩
    simp [hgn]
  · exact List.mem_append_right _ (List.mem_singleton.mpr rfl)

theorem writeFile_mem_of (files : List (String × String))
    (name content : String) (f : String × String) (hf : f ∈ files)
    (hne : f.1 ≠ name) :
    f ∈ writeFile files name content := by
  unfold writeFile
  split
  · refine List.mem_map.mpr ⟨f, hf, ?_⟩
    simp [hne]
  · exact List.mem_append_left _ hf

theorem writeFile_mem_inv (files : List (String × String))
    (name content : String) (f : String × String)
    (hf : f ∈ writeFile files name content) :
    f = (name, content) ∨ f ∈ files := by
  unfold writeFile at hf
  split at hf
  · obtain ⟨g, hg, hfg⟩ := List.mem_map.mp hf
    by_cases hn : g.1 = name
    · left
      simp [hn] at hfg
      exact hfg.symm
    · right
      simp [hn] at hfg
      exact hfg ▸ hg
  · rcases List.mem_append.mp hf with h | h
    · exact Or.inr h
    · exact Or.inl (List.mem_singleton.mp h)

theorem writeFile_name_content (files : List (String × String))
    (name content : String) (f : String × String)
    (hf : f ∈ writeFile files name content) (hn : f.1 = name) :
    f = (name, content) := by
  unfold writeFile at hf
  split at hf
  · obtain ⟨g, hg, hfg⟩ := List.mem_map.mp hf
    by_cases hgn : g.1 = name
    · simp [hgn] at hfg
      exact hfg.symm
    · simp [hgn] at hfg
      exact absurd (hfg ▸ hn) hgn
  · rename_i h
    rcases List.mem_append.mp hf with hmem | hmem
    · exfalso
      apply h
      exact List.any_eq_true.mpr ⟨f, hmem, by simp [hn]⟩
    · exact List.mem_singleton.mp hmem

theorem cleanup_no_images (files : List (String × String)) (ts : String)
    (f : String × String) (hf : f ∈ (cleanup_session_images files ts).files) :
    isImageFile f.1 = false := by
  unfold cleanup_session_images at hf
  rcases writeFile_mem_inv _ _ _ _ hf with h | h
  · rw [h]
    rfl
  · have := (List.mem_filter.mp h).2
    simpa using this

theorem cleanup_marker_mem (files : List (String × String)) (ts : String) :
    (".cleaned", cleanedMarkerContent ts) ∈
      (cleanup_session_images files ts).files :=
  writeFile_mem_self _ _ _

/-! ### Claim theorems -/

/-- C1: on the two-frame stream `event: answer` with delta "Hi" followed
by `event: answer` with delta " there" and `finish_reason: "stop"`, the
decode phase of `get_chat_response` yields content `"Hi there"` and an
events log of length 2 holding both frames in arrival order; and in
general the final content is the concatenation
`fast_answer ++ answer_delta` of the two accumulators. -/
theorem C1_stream_decode :
    (decodeChat [c1frame1, c1frame2]).content = "Hi there" ∧
    (decodeChat [c1frame1, c1frame2]).events =
      [("answer", c1payload1), ("answer", c1payload2)] ∧
    (decodeChat [c1frame1, c1frame2]).events.length = 2 ∧
    ∀ chunks : List String, (decodeChat chunks).content =
      (decodeStream DecodeState.init chunks).fast_answer ++
      (decodeStream DecodeState.init chunks).answer_delta :=
  ⟨by decide, by decide, by decide, fun _ => rfl⟩

/-- C3 counterexample: on a chunk whose first `answer` frame carries the
malformed payload `{not json`, decoding does not abort: the stream is
decoded to the end, the malformed frame is silently skipped for
accumulation (while still logged), and the content of the following
well-formed frame is accumulated — contradicting the claim that decoding
aborts with a `DecodeError` rather than skipping the bad frame. -/
theorem C3_counterexample :
    parseJson "\x7bnot json" = none ∧
    (decodeChat [c3chunk]).events =
      [("answer", "\x7bnot json"), ("answer", c1payload1)] ∧
    (decodeChat [c3chunk]).content = "Hi" :=
  ⟨rfl, by decide, by decide⟩

/-- C3 amended: a `data:` line whose payload fails to parse as JSON is
appended to the events log (and delivered to the progress callback) but
changes nothing else: the accumulators and done flag are untouched and
decoding continues with the following lines instead of aborting. -/
theorem C3_malformed_frame_skipped (st : DecodeState) (line d : String)
    (he : stripPfx "event: " line = none)
    (hd : stripPfx "data: " line = some d)
    (hp : parseJson d = none) :
    processLine st line =
      { st with events := st.events ++ [(st.current_event, d)] } := by
  unfold processLine
  rw [he, hd]
  exact answerStep_parseNone _ _ hp

/-- Witness for `C3_malformed_frame_skipped` at the concrete malformed
line of `c3chunk`. -/
theorem C3_malformed_frame_skipped_witness :
    stripPfx "event: " "data: \x7bnot json" = none ∧
    stripPfx "data: " "data: \x7bnot json" = some "\x7bnot json" ∧
    parseJson "\x7bnot json" = none ∧
    processLine { DecodeState.init with current_event := "answer" }
        "data: \x7bnot json" =
      { events := [("answer", "\x7bnot json")], fast_answer := "",
        answer_delta := "", current_event := "answer", done := false } :=
  ⟨by decide, by decide, rfl,
    by
      rw [C3_malformed_frame_skipped
        { DecodeState.init with current_event := "answer" }
        "data: \x7bnot json" "\x7bnot json" (by decide) (by decide) rfl]
      decide⟩

/-- C4 counterexample: in a single chunk where a stop-marked `fastAnswer`
frame is followed by one more buffered frame, the buffered frame is still
appended to the events log (and delivered to the callback) even though
the done flag is set by the earlier frame — contradicting the claim that
no already-buffered frame after the stop frame is appended. -/
theorem C4_counterexample :
    (decodeStream DecodeState.init [c4chunk]).done = true ∧
    (decodeChat [c4chunk]).events =
      [("fastAnswer", c4payload), ("foo", "later")] ∧
    (decodeChat [c4chunk]).content = "Hi" :=
  ⟨by decide, by decide, by decide⟩

/-- C4 amended: the done flag is only consulted between chunks: once the
chunk whose processing marks the stream done has been processed in full
(frames buffered later in that same chunk included, see
`C4_counterexample`), no later chunk is read, appended, or delivered. -/
theorem C4_stop_ends_stream (st : DecodeState) (c : String)
    (cs : List String) (h : (processChunk st c).done = true) :
    decodeStream st (c :: cs) = processChunk st c := by
  unfold decodeStream
  simp [h]

/-- Witness for `C4_stop_ends_stream`: after the chunk holding the stop
frame, the extra chunk `c4extra` is never decoded. -/
theorem C4_stop_ends_stream_witness :
    (processChunk DecodeState.init c4chunk).done = true ∧
    decodeStream DecodeState.init [c4chunk, c4extra] =
      processChunk DecodeState.init c4chunk :=
  ⟨by decide, C4_stop_ends_stream DecodeState.init c4chunk [c4extra] (by decide)⟩

/-- C2: the retry loop makes at most `maxRetries = 3` attempts; against a
sender whose every attempt fails (non-2xx status or transport error) it
returns the error built from the third attempt after exactly 3 attempts,
sleeping 2 seconds after the first failure and 4 after the second and not
sleeping after the last; and a 2xx outcome on attempt `k` (the earlier
attempts failing) ends the loop successfully at exactly `k` attempts with
the backoff sleeps `2^1 .. 2^(k-1)` performed between them. -/
theorem C2_retry_policy :
    (∀ oc : Nat → SendOutcome, (retryLoop oc).attempts ≤ 3) ∧
    (∀ oc : Nat → SendOutcome, (∀ a, oc a ≠ SendOutcome.success) →
      retryLoop oc =
        { result := errOf (oc 3), attempts := 3, sleeps := [2, 4] }) ∧
    (∀ oc : Nat → SendOutcome, ∀ k : Nat, 1 ≤ k → k ≤ 3 →
      oc k = SendOutcome.success →
      (∀ j, 1 ≤ j → j < k → oc j ≠ SendOutcome.success) →
      retryLoop oc =
        { result := RetryResult.ok, attempts := k,
          sleeps := (List.range (k - 1)).map (fun i => 2 ^ (i + 1)) }) := by
  refine ⟨?_, ?_, ?_⟩
  · intro oc
    cases h1 : oc 1 <;> simp [retryLoop, retryFrom, maxRetries, h1] <;>
      cases h2 : oc 2 <;> simp [retryFrom, h2] <;>
      cases h3 : oc 3 <;> simp [retryFrom, h3]
  · intro oc hfail
    have h1 := hfail 1
    have h2 := hfail 2
    have h3 := hfail 3
    cases e1 : oc 1 <;> (try exact absurd e1 h1) <;>
      cases e2 : oc 2 <;> (try exact absurd e2 h2) <;>
      cases e3 : oc 3 <;> (try exact absurd e3 h3) <;>
      simp [retryLoop, retryFrom, maxRetries, e1, e2, e3, errOf]
  · intro oc k hk1 hk3 hsucc hbefore
    interval_cases k
    · simp [retryLoop, retryFrom, maxRetries, hsucc]
    · have h1 := hbefore 1 (by omega) (by omega)
      cases e1 : oc 1 <;> (try exact absurd e1 h1) <;>
        simp [retryLoop, retryFrom, maxRetries, e1, hsucc] <;> decide
    · have h1 := hbefore 1 (by omega) (by omega)
      have h2 := hbefore 2 (by omega) (by omega)
      cases e1 : oc 1 <;> (try exact absurd e1 h1) <;>
        cases e2 : oc 2 <;> (try exact absurd e2 h2) <;>
        simp [retryLoop, retryFrom, maxRetries, e1, e2, hsucc] <;> decide

/-- Witness for `C2_retry_policy`: an always-failing sender exhausts the
3 attempts with sleeps of 2 and 4 seconds, and a sender succeeding on the
second attempt stops there with a single 2-second sleep. -/
theorem C2_retry_policy_witness :
    retryLoop (fun _ => SendOutcome.transportError "dns") =
      { result := RetryResult.transportError "dns", attempts := 3,
        sleeps := [2, 4] } ∧
    retryLoop (fun a => if a == 2 then SendOutcome.success
                        else SendOutcome.httpError 500 "bad gateway") =
      { result := RetryResult.ok, attempts := 2, sleeps := [2] } :=
  ⟨by
    rw [C2_retry_policy.2.1 (fun _ => SendOutcome.transportError "dns")
      (fun a h => SendOutcome.noConfusion h)]
    decide,
   by
    rw [C2_retry_policy.2.2
      (fun a => if a == 2 then SendOutcome.success
                else SendOutcome.httpError 500 "bad gateway")
      2 (by decide) (by decide) rfl
      (by intro j h1 h2; interval_cases j; decide)]
    decide⟩

/-- C10: the current event name starts out empty, so a `data:` line seen
before any `event:` line is logged (and delivered to the progress
callback) under the empty event name; an `event:` line only replaces the
current event name; and a `data:` line never changes the current event
name, so a name, once set, is reused for every following `data:` line
until the next `event:` line. -/
theorem C10_current_event_tracking :
    DecodeState.init.current_event = "" ∧
    (∀ st : DecodeState, ∀ line n : String,
      stripPfx "event: " line = some n →
      processLine st line = { st with current_event := n }) ∧
    (∀ st : DecodeState, ∀ line d : String,
      stripPfx "event: " line = none → stripPfx "data: " line = some d →
      (processLine st line).events = st.events ++ [(st.current_event, d)] ∧
      (processLine st line).current_event = st.current_event) := by
  refine ⟨rfl, ?_, ?_⟩
  · intro st line n he
    unfold processLine
    rw [he]
  · intro st line d he hd
    unfold processLine
    rw [he, hd]
    have h := answerStep_preserves
      { st with events := st.events ++ [(st.current_event, d)] } d
    exact ⟨h.1, h.2⟩

/-- Witness for `C10_current_event_tracking`: a `data: hello` line
arriving first is logged under the empty event name, and an
`event: answer` line sets the name used by the following data line. -/
theorem C10_current_event_tracking_witness :
    stripPfx "event: " "event: answer" = some "answer" ∧
    processLine DecodeState.init "event: answer" =
      { DecodeState.init with current_event := "answer" } ∧
    stripPfx "event: " "data: hello" = none ∧
    stripPfx "data: " "data: hello" = some "hello" ∧
    (processLine DecodeState.init "data: hello").events = [("", "hello")] ∧
    (processLine DecodeState.init "data: hello").current_event = "" :=
  ⟨by decide,
    C10_current_event_tracking.2.1 DecodeState.init "event: answer" "answer"
      (by decide),
    by decide, by decide,
    (C10_current_event_tracking.2.2 DecodeState.init "data: hello" "hello"
      (by decide) (by decide)).1,
    (C10_current_event_tracking.2.2 DecodeState.init "data: hello" "hello"
      (by decide) (by decide)).2⟩

/-- C5: `periodic_cleanup` is the per-entry step mapped over the session
directories, and the step purges a session's image files exactly when the
directory lacks the `user_id.txt` sentinel (orphaned, purged regardless
of age) or its modification time lies more than `expiryDays` days in the
past; a session with a sentinel whose modification time is within
`expiryDays` (or in the future) is left entirely untouched. -/
theorem C5_periodic_cleanup_policy (now : Nat) (ts : String) (d : Nat)
    (entries : List SessionEntry) (e : SessionEntry) :
    periodic_cleanup now ts d entries = entries.map (pcStep now ts d) ∧
    ((hasSentinel e = false ∨
        (e.mtime ≤ now ∧ now - e.mtime > d * secondsInDay)) →
      pcStep now ts d e =
        { e with files := (cleanup_session_images e.files ts).files }) ∧
    (hasSentinel e = true →
      ¬(e.mtime ≤ now ∧ now - e.mtime > d * secondsInDay) →
      pcStep now ts d e = e) := by
  refine ⟨rfl, ?_, ?_⟩
  · rintro (h | ⟨h1, h2⟩)
    · simp [pcStep, h]
    · by_cases hs : hasSentinel e <;> simp [pcStep, hs, h1, h2]
  · intro hs hnot
    rw [not_and_or] at hnot
    rcases hnot with h | h
    · simp [pcStep, hs, h]
    · by_cases hm : e.mtime ≤ now <;> simp [pcStep, hs, h, hm]

/-- Witness for `C5_periodic_cleanup_policy` with `expiryDays = 2` and
`now` one second past three days: an orphaned session is purged, a stale
owned session is purged, and a fresh owned session is untouched. -/
theorem C5_periodic_cleanup_policy_witness :
    hasSentinel ⟨"s1", [("a.png", "x")], 0⟩ = false ∧
    pcStep 259201 "T" 2 ⟨"s1", [("a.png", "x")], 0⟩ =
      ⟨"s1", [(".cleaned", cleanedMarkerContent "T")], 0⟩ ∧
    pcStep 259201 "T" 2 ⟨"s2", [("user_id.txt", "u"), ("a.png", "x")], 0⟩ =
      ⟨"s2", [("user_id.txt", "u"), (".cleaned", cleanedMarkerContent "T")], 0⟩ ∧
    pcStep 259201 "T" 2
        ⟨"s3", [("user_id.txt", "u"), ("a.png", "x")], 259200⟩ =
      ⟨"s3", [("user_id.txt", "u"), ("a.png", "x")], 259200⟩ :=
  ⟨by decide,
   by
    rw [(C5_periodic_cleanup_policy 259201 "T" 2 []
      ⟨"s1", [("a.png", "x")], 0⟩).2.1 (Or.inl (by decide))]
    decide,
   by
    rw [(C5_periodic_cleanup_policy 259201 "T" 2 []
      ⟨"s2", [("user_id.txt", "u"), ("a.png", "x")], 0⟩).2.1
      (Or.inr ⟨by decide, by decide⟩)]
    decide,
   (C5_periodic_cleanup_policy 259201 "T" 2 []
      ⟨"s3", [("user_id.txt", "u"), ("a.png", "x")], 259200⟩).2.2
      (by decide) (by decide)⟩

/-- C6: a purge deletes exactly the files whose Rust path extension is
`png`, `jpg` or `jpeg` and writes the `.cleaned` marker holding the purge
timestamp; every other file — in particular `input.txt`, `response.md`
and the sentinel `user_id.txt` — survives with its content unchanged, and
nothing else appears in the directory. -/
theorem C6_cleanup_deletes_only_images (files : List (String × String))
    (ts : String) (f : String × String) :
    (".cleaned", cleanedMarkerContent ts) ∈
      (cleanup_session_images files ts).files ∧
    (cleanup_session_images files ts).removed =
      files.countP (fun g => isImageFile g.1) ∧
    (f ∈ files → isImageFile f.1 = false → f.1 ≠ ".cleaned" →
      f ∈ (cleanup_session_images files ts).files) ∧
    (f ∈ (cleanup_session_images files ts).files →
      f = (".cleaned", cleanedMarkerContent ts) ∨
        (f ∈ files ∧ isImageFile f.1 = false)) ∧
    isImageFile "input.txt" = false ∧
    isImageFile "response.md" = false ∧
    isImageFile "user_id.txt" = false ∧
    isImageFile "response_1700000000.png" = true := by
  refine ⟨cleanup_marker_mem files ts, rfl, ?_, ?_,
    by decide, by decide, by decide, by decide⟩
  · intro hmem hni hname
    exact writeFile_mem_of _ _ _ f
      (List.mem_filter.mpr ⟨hmem, by simp [hni]⟩) hname
  · intro hf
    have hnoimg := cleanup_no_images files ts f hf
    rcases writeFile_mem_inv _ _ _ _ hf with h | h
    · exact Or.inl h
    · exact Or.inr ⟨(List.mem_filter.mp h).1, hnoimg⟩

/-- Witness for `C6_cleanup_deletes_only_images` on a session directory
holding the three text artifacts and one image. -/
theorem C6_cleanup_deletes_only_images_witness :
    ("input.txt", "q") ∈
      [("user_id.txt", "u"), ("input.txt", "q"), ("response.md", "a"),
        ("response_1.png", "img")] ∧
    isImageFile "input.txt" = false ∧
    ("input.txt", "q") ∈
      (cleanup_session_images
        [("user_id.txt", "u"), ("input.txt", "q"), ("response.md", "a"),
          ("response_1.png", "img")] "T").files ∧
    (cleanup_session_images
      [("user_id.txt", "u"), ("input.txt", "q"), ("response.md", "a"),
        ("response_1.png", "img")] "T").removed = 1 :=
  ⟨by decide, by decide,
   (C6_cleanup_deletes_only_images
      [("user_id.txt", "u"), ("input.txt", "q"), ("response.md", "a"),
        ("response_1.png", "img")] "T" ("input.txt", "q")).2.2.1
      (by decide) (by decide) (by decide),
   by decide⟩

/-- C7: cleanup is idempotent: a second run on an already-cleaned session
removes zero files and does not error, only rewrites the `.cleaned`
marker with the new timestamp, and with the same timestamp reproduces the
directory contents of the first run exactly. -/
theorem C7_cleanup_idempotent (files : List (String × String))
    (ts ts' : String) :
    (cleanup_session_images (cleanup_session_images files ts).files
      ts').removed = 0 ∧
    (cleanup_session_images (cleanup_session_images files ts).files
        ts').files =
      (cleanup_session_images files ts).files.map
        (fun f => if f.1 == ".cleaned"
          then (".cleaned", cleanedMarkerContent ts') else f) ∧
    (cleanup_session_images (cleanup_session_images files ts).files
        ts).files =
      (cleanup_session_images files ts).files := by
  have hni : ∀ f ∈ (cleanup_session_images files ts).files,
      isImageFile f.1 = false :=
    fun f hf => cleanup_no_images files ts f hf
  have hkeep : (cleanup_session_images files ts).files.filter
      (fun f => !(isImageFile f.1)) = (cleanup_session_images files ts).files := by
    apply List.filter_eq_self.mpr
    intro a ha
    simp [hni a ha]
  have hany : ((cleanup_session_images files ts).files.any
      (fun f => f.1 == ".cleaned")) = true :=
    List.any_eq_true.mpr ⟨_, cleanup_marker_mem files ts, by simp⟩
  refine ⟨?_, ?_, ?_⟩
  · show (cleanup_session_images files ts).files.countP
      (fun f => isImageFile f.1) = 0
    apply List.countP_eq_zero.mpr
    intro a ha
    simp [hni a ha]
  · show writeFile ((cleanup_session_images files ts).files.filter
        (fun f => !(isImageFile f.1))) ".cleaned"
        (cleanedMarkerContent ts') = _
    rw [hkeep]
    unfold writeFile
    rw [if_pos hany]
  · show writeFile ((cleanup_session_images files ts).files.filter
        (fun f => !(isImageFile f.1))) ".cleaned"
        (cleanedMarkerContent ts) = _
    rw [hkeep]
    unfold writeFile
    rw [if_pos hany]
    have hfix : ∀ f ∈ (cleanup_session_images files ts).files,
        (if f.1 == ".cleaned"
          then (".cleaned", cleanedMarkerContent ts) else f) = f := by
      intro f hf
      by_cases h : f.1 = ".cleaned"
      · rw [if_pos (by simp [h])]
        exact (writeFile_name_content _ _ _ f hf h).symm
      · rw [if_neg (by simp [h])]
    calc (cleanup_session_images files ts).files.map
          (fun f => if f.1 == ".cleaned"
            then (".cleaned", cleanedMarkerContent ts) else f)
        = (cleanup_session_images files ts).files.map id :=
          List.map_congr_left hfix
      _ = _ := List.map_id _

/-- C8: `SessionManager::create_session` cannot signal an error to its
caller: its Rust return type is a plain `String`, so even when directory
creation or sentinel writing fails the fresh session id is returned and
the failure is only logged.  This contradicts the claim (and every call
site, which applies `?` to the result) that a filesystem failure is
surfaced: with a failing `fs::create_dir_all` the id is still returned,
and likewise with a failing sentinel write. -/
theorem C8_create_session_swallows_errors :
    (create_session "3f2a" "user-1" (some "permission denied") none).returned
      = "3f2a" ∧
    (create_session "3f2a" "user-1" (some "permission denied") none).dirCreated
      = false ∧
    (create_session "3f2a" "user-1" (some "permission denied") none).logged
      = ["创建会话目录失败: permission denied"] ∧
    (create_session "3f2a" "user-1" none (some "disk full")).returned
      = "3f2a" ∧
    (create_session "3f2a" "user-1" none (some "disk full")).sentinelWritten
      = false ∧
    (∀ sid uid : String, ∀ m w : Option String,
      (create_session sid uid m w).returned = sid) :=
  ⟨rfl, rfl, rfl, rfl, rfl, fun _ _ _ _ => rfl⟩

/-- C9: the preview computation of `get_session_info` takes the byte
slice `&content[..30]`, which panics when byte index 30 falls inside a
multi-byte character: on the 31-byte input of 29 `a`s followed by `é`
the summary computation fails (modelled as `none`) instead of truncating
to a character budget; on the short ASCII input `"hello"` the preview is
`"hello"` as the spec example expects. -/
theorem C9_preview_byte_slice_panics :
    rustByteLen c9input = 31 ∧
    input_preview (some c9input) = none ∧
    input_preview (some "hello") = some "hello" :=
  ⟨by decide, by decide, by decide⟩

end LNDC
